import Mathlib

/-!
# Verification of the Hawkes-process EM engine (`src/hawkes/hawkes.py`)

Shallow embedding of the Hawkes-process expectation-maximization code in
exact real arithmetic.  Timestamp sequences are functions `Fin n → ℝ`,
dense matrices are `Fin n → Fin n → ℝ`, NumPy reductions are `Finset`
sums over `Fin n`.  Division follows Lean's total-division convention
(`x / 0 = 0`) where NumPy floating point would emit `inf`/`nan` with a
warning; the points where this matters are flagged at the theorems that
touch them.  The SciPy root finder `scipy.optimize.newton`, an external
library call that either returns a float or raises `RuntimeError`, is
abstracted as a parameter `solve : (ℝ → ℝ) → ℝ → Except String ℝ`.
-/

namespace Hawkes

set_option linter.unusedVariables false

noncomputable section

open Real Finset

/-- Embedding of `TDMatrix(t)` (hawkes.py lines 7-28): `dt[i, j] = t[i] - t[j]`
for `j ≤ i` (the loop runs `j in xrange(i + 1)`), and the `np.zeros`
initialisation leaves every entry with `j > i` equal to `0`. -/
def TDMatrix {n : ℕ} (t : Fin n → ℝ) : Fin n → Fin n → ℝ :=
  fun i j => if j ≤ i then t i - t j else 0

/-- Embedding of `SparseTDMatrix(t, max_td)` (hawkes.py lines 31-44): the list
of `(row, col, data)` triples appended by the double loop — `j ≤ i < n` with
`td = t[i] - t[j]` kept exactly when `td >= max_td` — which is the stored
entry set of the resulting `csr_matrix`. -/
def SparseTDMatrix (t : List ℝ) (max_td : ℝ) : List (ℕ × ℕ × ℝ) :=
  (List.range t.length).flatMap fun i =>
    (List.range (i + 1)).filterMap fun j =>
      if max_td ≤ t.getD i 0 - t.getD j 0 then some (i, j, t.getD i 0 - t.getD j 0)
      else none

/-- The unnormalised matrix built by the three assignments of
`StructProbMatrix` (hawkes.py lines 91-93): start from
`p = a * np.exp(-b * dt)`, zero the upper triangle including the diagonal
(`p[np.triu_indices(n)] = 0`), then write `mu` on the diagonal
(`p[np.diag_indices(n)] = mu`). -/
def structRaw {n : ℕ} (dt : Fin n → Fin n → ℝ) (mu a b : ℝ) : Fin n → Fin n → ℝ :=
  fun i j => if i = j then mu else if i ≤ j then 0 else a * Real.exp (-b * dt i j)

/-- Embedding of `StructProbMatrix(dt, mu, a, b)` (hawkes.py lines 72-95):
the unnormalised matrix `structRaw`, then each row divided by its own sum
(`p /= np.sum(p, axis=1)[np.newaxis].T`). -/
def StructProbMatrix {n : ℕ} (dt : Fin n → Fin n → ℝ) (mu a b : ℝ) :
    Fin n → Fin n → ℝ :=
  fun i j => structRaw dt mu a b i j / ∑ k, structRaw dt mu a b i k

/-- The unnormalised matrix built by `StructProbMatrixFromTime`
(hawkes.py lines 120-123): `p = np.tile(np.exp(b * t), (n, 1))` (so row `i`,
column `j` holds `exp(b * t[j])`), zero the upper triangle including the
diagonal, then write `mu / a * np.exp(b * t)` on the diagonal. -/
def timeRaw {n : ℕ} (t : Fin n → ℝ) (mu a b : ℝ) : Fin n → Fin n → ℝ :=
  fun i j =>
    if i = j then mu / a * Real.exp (b * t i)
    else if i ≤ j then 0 else Real.exp (b * t j)

/-- Embedding of `StructProbMatrixFromTime(t, mu, a, b)` (hawkes.py lines
98-125): `timeRaw`, then each row divided by its own sum. -/
def StructProbMatrixFromTime {n : ℕ} (t : Fin n → ℝ) (mu a b : ℝ) :
    Fin n → Fin n → ℝ :=
  fun i j => timeRaw t mu a b i j / ∑ k, timeRaw t mu a b i k

/-- Embedding of `Q(mu, a, b, t, p, dt)` (hawkes.py lines 127-158), with
`T = t[-1] - t[0]`:
`np.log(mu) * np.diag(p).sum() - mu * T + (p * (np.log(a) - b * dt)).sum()
 + a / b * (np.exp(-b * (T - t)) - 1).sum()`.
The middle `.sum()` ranges over every entry of the `n × n` array. -/
def Q {n : ℕ} (mu a b : ℝ) (t : Fin (n + 1) → ℝ)
    (p dt : Fin (n + 1) → Fin (n + 1) → ℝ) : ℝ :=
  Real.log mu * (∑ i, p i i) - mu * (t (Fin.last n) - t 0)
    + ∑ i, ∑ j, p i j * (Real.log a - b * dt i j)
    + a / b * ∑ i, (Real.exp (-b * (t (Fin.last n) - t 0 - t i)) - 1)

set_option linter.unusedVariables false in
/-- Embedding of `f(t, T, S0, S1, S2)` (hawkes.py lines 161-176), the closure
handed to `newton`:
`fc = S2 + S1 / b - S1 * (np.sum((T - t) * np.exp(-b * (T - t)))
                          / np.sum(1 - np.exp(-b * (T - t))))`.
`S0` is accepted and, as in the source, unused. -/
def f {n : ℕ} (t : Fin n → ℝ) (T S0 S1 S2 : ℝ) : ℝ → ℝ :=
  fun b =>
    S2 + S1 / b - S1 * ((∑ i, (T - t i) * Real.exp (-b * (T - t i)))
      / ∑ i, (1 - Real.exp (-b * (T - t i))))

/-- One iteration body of the `for` loop of `ExpectationMaximization`
(hawkes.py lines 187-203): E-step `p = StructProbMatrix(dt, mu, a, b)`,
sufficient statistics `S0 = np.sum(np.diag(p))`, `S1 = len(t) - S0`,
`S2 = -(p * dt).sum()` (a whole-array sum), then the M-step
`mu = S0 / T`, `b = newton(f(t, T, S0, S1, S2), b)` (seeded at the previous
`b`), `a = b * S1 / np.sum(1 - np.exp(-b * (T - t)))` with the new `b`.
The state tuple is `(mu, a, b, p)`; a failure of the root finder aborts. -/
def EMbody {n : ℕ} (solve : (ℝ → ℝ) → ℝ → Except String ℝ)
    (t : Fin (n + 1) → ℝ) (dt : Fin (n + 1) → Fin (n + 1) → ℝ) (T : ℝ)
    (s : ℝ × ℝ × ℝ × (Fin (n + 1) → Fin (n + 1) → ℝ)) :
    Except String (ℝ × ℝ × ℝ × (Fin (n + 1) → Fin (n + 1) → ℝ)) :=
  let p := StructProbMatrix dt s.1 s.2.1 s.2.2.1
  let S0 := ∑ i, p i i
  let S1 := ((n + 1 : ℕ) : ℝ) - S0
  let S2 := -(∑ i, ∑ j, p i j * dt i j)
  (solve (f t T S0 S1 S2) s.2.2.1).map fun bnew =>
    (S0 / T, bnew * S1 / ∑ i, (1 - Real.exp (-bnew * (T - t i))), bnew, p)

/-- The `for _ in xrange(niter)` loop of `ExpectationMaximization`,
applying `EMbody` `niter` times in sequence. -/
def EMloop {n : ℕ} (solve : (ℝ → ℝ) → ℝ → Except String ℝ)
    (t : Fin (n + 1) → ℝ) (dt : Fin (n + 1) → Fin (n + 1) → ℝ) (T : ℝ) :
    ℕ → ℝ × ℝ × ℝ × (Fin (n + 1) → Fin (n + 1) → ℝ) →
    Except String (ℝ × ℝ × ℝ × (Fin (n + 1) → Fin (n + 1) → ℝ))
  | 0, s => Except.ok s
  | k + 1, s => (EMbody solve t dt T s).bind (EMloop solve t dt T k)

/-- Embedding of `ExpectationMaximization(t, niter, mu0, a0, b0)`
(hawkes.py lines 178-205): `T = t[-1] - t[0]`, `dt = TDMatrix(t)` computed
once, then `niter` iterations of `EMbody` from `(mu0, a0, b0)`; returns the
final `(mu, a, b, p)`.  The source performs no validation of its input.
In the source `p` is assigned only inside the loop body, so at `niter = 0`
the final `return mu, a, b, p` raises `UnboundLocalError`; that is the only
case in which the loop-state seed of the `p` slot would be observable, and
it is modelled as the corresponding error.  For `niter ≥ 1` the first
iteration overwrites the seed with the E-step matrix. -/
def ExpectationMaximization {n : ℕ} (t : Fin (n + 1) → ℝ) (niter : ℕ)
    (mu0 a0 b0 : ℝ) (solve : (ℝ → ℝ) → ℝ → Except String ℝ) :
    Except String (ℝ × ℝ × ℝ × (Fin (n + 1) → Fin (n + 1) → ℝ)) :=
  if niter = 0 then
    Except.error "UnboundLocalError: local variable p referenced before assignment"
  else
    EMloop solve t (TDMatrix t) (t (Fin.last n) - t 0) niter
      (mu0, a0, b0, fun _ _ => 0)

/-- Modelled from the spec: the engine precondition, which the source never
checks — "a finite ordered sequence of real timestamps (n ≥ 2, strictly
increasing), initial parameter guesses (mu0, a0, b0, all > 0)". -/
def validInput {n : ℕ} (t : Fin n → ℝ) (mu0 a0 b0 : ℝ) : Prop :=
  2 ≤ n ∧ StrictMono t ∧ 0 < mu0 ∧ 0 < a0 ∧ 0 < b0

/-- Model of `np.diag_indices(k)` with its default `ndim=2`: a tuple of two
index arrays, each `np.arange(k)`. -/
def diagIndices (k : ℕ) : List (List ℕ) :=
  [List.range k, List.range k]

/-- Model of a NumPy fancy-indexing assignment `arr[idx] = v` into a
one-dimensional array `arr`, where `idx` is a tuple of index arrays (one
list per indexed dimension).  NumPy raises
`IndexError: too many indices for array` whenever the tuple holds more
index arrays than the array has dimensions (here one); with a single index
array the listed positions are overwritten. -/
def npSetIndex1D (arr : List ℝ) (idx : List (List ℕ)) (v : ℝ) :
    Except String (List ℝ) :=
  match idx with
  | [] => Except.ok arr
  | [is] => Except.ok (arr.enum.map fun kx => if kx.1 ∈ is then v else kx.2)
  | _ => Except.error "IndexError: too many indices for array"

/-- Embedding of `SparseStructProbMatrix(dt, mu, a, b)` (hawkes.py lines
47-69) applied to a CSR matrix with stored-value list `data` (= `dt.data`):
`p = a * np.exp(-b * dt.data)` is a one-dimensional array of length
`len(data)`, and `p[np.diag_indices(p.shape[0])] = mu` indexes it with a
tuple of two index arrays.  The subsequent row normalisation
`p /= np.sum(p, axis=1)[np.newaxis].T` is modelled as returning the array
unchanged; it is never reached, because the indexing assignment raises
first. -/
def SparseStructProbMatrix (data : List ℝ) (mu a b : ℝ) :
    Except String (List ℝ) :=
  let p := data.map fun d => a * Real.exp (-b * d)
  (npSetIndex1D p (diagIndices p.length) mu).bind fun p2 => Except.ok p2

/-! ## Spec-side restatements, used to compare the code against the claims -/

/-- Statistic `S0` as the claims word it: the sum of the diagonal of the
responsibility matrix. -/
def specS0 {n : ℕ} (p : Fin n → Fin n → ℝ) : ℝ :=
  ∑ i, p i i

/-- Statistic `S2` as claim C2 words it: `-(sum over j ≤ i of p_ij * dt_ij)`,
a sum over the lower triangle including the diagonal only (the code instead
sums `p * dt` over the whole array). -/
def specS2 {n : ℕ} (p dt : Fin n → Fin n → ℝ) : ℝ :=
  -(∑ i, ∑ j ∈ Finset.univ.filter (fun j => j ≤ i), p i j * dt i j)

/-- The stationarity function of claim C2:
`b ↦ S2 + S1/b − S1 · (Σ (T−t_i)·exp(−b(T−t_i))) / (Σ (1−exp(−b(T−t_i))))`. -/
def specStationarity {n : ℕ} (t : Fin n → ℝ) (T S1 S2 : ℝ) : ℝ → ℝ :=
  fun b =>
    S2 + S1 / b - S1 * ((∑ i, (T - t i) * Real.exp (-b * (T - t i)))
      / ∑ i, (1 - Real.exp (-b * (T - t i))))

/-! ## Basic facts about the unnormalised E-step matrix -/

/-- Every entry of the unnormalised E-step matrix is non-negative when
`mu` and `a` are. -/
lemma structRaw_nonneg {n : ℕ} (dt : Fin n → Fin n → ℝ) {mu a : ℝ} (b : ℝ)
    (hmu : 0 ≤ mu) (ha : 0 ≤ a) (i j : Fin n) :
    0 ≤ structRaw dt mu a b i j := by
  unfold structRaw
  split_ifs
  · exact hmu
  · exact le_refl 0
  · exact mul_nonneg ha (Real.exp_pos _).le

/-- The diagonal entry of the unnormalised E-step matrix is `mu`. -/
lemma structRaw_diag {n : ℕ} (dt : Fin n → Fin n → ℝ) (mu a b : ℝ) (i : Fin n) :
    structRaw dt mu a b i i = mu := by
  simp [structRaw]

/-- The diagonal entry of the unnormalised time-indexed E-step matrix. -/
lemma timeRaw_diag {n : ℕ} (t : Fin n → ℝ) (mu a b : ℝ) (i : Fin n) :
    timeRaw t mu a b i i = mu / a * Real.exp (b * t i) := by
  simp [timeRaw]

/-- Each row sum of the unnormalised E-step matrix is positive when
`mu > 0` and `a ≥ 0` (the diagonal contributes `mu`). -/
lemma structRaw_rowsum_pos {n : ℕ} (dt : Fin n → Fin n → ℝ) {mu a : ℝ} (b : ℝ)
    (hmu : 0 < mu) (ha : 0 ≤ a) (i : Fin n) :
    0 < ∑ k, structRaw dt mu a b i k := by
  refine Finset.sum_pos' (fun k _ => structRaw_nonneg dt b hmu.le ha i k)
    ⟨i, Finset.mem_univ i, ?_⟩
  rw [structRaw_diag]
  exact hmu

/-! ## Claim theorems -/

/-- Claim C1: for a strictly increasing timestamp sequence of length `n + 1 ≥ 1`
and `mu, a, b > 0`, the responsibility matrix
`StructProbMatrix (TDMatrix t) mu a b` has rows summing to `1`, entries in
`[0, 1]`, entries strictly above the diagonal equal to `0`, and its row `0`
carries all its mass on the diagonal entry `(0, 0)`. -/
theorem structProbMatrix_row_stochastic {n : ℕ} (t : Fin (n + 1) → ℝ)
    (mu a b : ℝ) (ht : StrictMono t) (hmu : 0 < mu) (ha : 0 < a) (hb : 0 < b) :
    (∀ i, ∑ j, StructProbMatrix (TDMatrix t) mu a b i j = 1) ∧
    (∀ i j, 0 ≤ StructProbMatrix (TDMatrix t) mu a b i j ∧
      StructProbMatrix (TDMatrix t) mu a b i j ≤ 1) ∧
    (∀ i j, i < j → StructProbMatrix (TDMatrix t) mu a b i j = 0) ∧
    StructProbMatrix (TDMatrix t) mu a b 0 0 = 1 := by
  have hSpos : ∀ i, 0 < ∑ k, structRaw (TDMatrix t) mu a b i k :=
    structRaw_rowsum_pos (TDMatrix t) b hmu ha.le
  refine ⟨fun i => ?_, fun i j => ⟨?_, ?_⟩, fun i j hij => ?_, ?_⟩
  · rw [show (∑ j, StructProbMatrix (TDMatrix t) mu a b i j)
        = (∑ j, structRaw (TDMatrix t) mu a b i j)
          / ∑ k, structRaw (TDMatrix t) mu a b i k from
      (Finset.sum_div _ _ _).symm]
    exact div_self (hSpos i).ne'
  · exact div_nonneg (structRaw_nonneg (TDMatrix t) b hmu.le ha.le i j)
      (hSpos i).le
  · show structRaw (TDMatrix t) mu a b i j
        / ∑ k, structRaw (TDMatrix t) mu a b i k ≤ 1
    rw [div_le_one (hSpos i)]
    exact Finset.single_le_sum
      (fun k _ => structRaw_nonneg (TDMatrix t) b hmu.le ha.le i k)
      (Finset.mem_univ j)
  · have hraw : structRaw (TDMatrix t) mu a b i j = 0 := by
      simp [structRaw, hij.ne, hij.le]
    show structRaw (TDMatrix t) mu a b i j
        / ∑ k, structRaw (TDMatrix t) mu a b i k = 0
    rw [hraw, zero_div]
  · have hrow : (∑ k, structRaw (TDMatrix t) mu a b 0 k) = mu := by
      rw [Finset.sum_eq_single (0 : Fin (n + 1))]
      · exact structRaw_diag _ _ _ _ _
      · intro k _ hk
        simp [structRaw, (Ne.symm hk), Fin.zero_le k]
      · intro h
        exact absurd (Finset.mem_univ _) h
    show structRaw (TDMatrix t) mu a b 0 0
        / ∑ k, structRaw (TDMatrix t) mu a b 0 k = 1
    rw [hrow, structRaw_diag]
    exact div_self hmu.ne'

/-- Witness for C1 at the concrete input `t = [1.0]`, `mu = a = b = 1`. -/
theorem structProbMatrix_row_stochastic_witness :
    (∀ i, ∑ j, StructProbMatrix (TDMatrix ![(1 : ℝ)]) 1 1 1 i j = 1) ∧
    (∀ i j, 0 ≤ StructProbMatrix (TDMatrix ![(1 : ℝ)]) 1 1 1 i j ∧
      StructProbMatrix (TDMatrix ![(1 : ℝ)]) 1 1 1 i j ≤ 1) ∧
    (∀ i j, i < j → StructProbMatrix (TDMatrix ![(1 : ℝ)]) 1 1 1 i j = 0) ∧
    StructProbMatrix (TDMatrix ![(1 : ℝ)]) 1 1 1 0 0 = 1 :=
  structProbMatrix_row_stochastic ![(1 : ℝ)] 1 1 1
    (by
      intro i j hij
      have h1 := i.isLt
      have h2 := j.isLt
      rw [Fin.lt_def] at hij
      omega)
    one_pos one_pos one_pos

/-- Claim C6: `TDMatrix t` holds exactly `t i - t j` at every position with
`j ≤ i` and exactly `0` at every position with `j > i`. -/
theorem tdMatrix_entries {n : ℕ} (t : Fin n → ℝ) (i j : Fin n) :
    (j ≤ i → TDMatrix t i j = t i - t j) ∧ (i < j → TDMatrix t i j = 0) := by
  constructor
  · intro h
    simp [TDMatrix, h]
  · intro h
    simp [TDMatrix, h.not_le]

/-- Claim C9: for a strictly increasing timestamp sequence and `mu, a, b > 0`, the
time-indexed E-step `StructProbMatrixFromTime t mu a b` coincides with the
dense E-step `StructProbMatrix (TDMatrix t) mu a b`: row `i` of the dense
unnormalised matrix is the time-indexed one scaled by `a · exp(−b·t_i)`,
which the per-row normalisation cancels. -/
theorem structProbMatrixFromTime_eq_structProbMatrix {n : ℕ} (t : Fin n → ℝ)
    (mu a b : ℝ) (ht : StrictMono t) (hmu : 0 < mu) (ha : 0 < a) (hb : 0 < b) :
    StructProbMatrixFromTime t mu a b = StructProbMatrix (TDMatrix t) mu a b := by
  funext i j
  have hc : a * Real.exp (-b * t i) ≠ 0 := mul_ne_zero ha.ne' (Real.exp_ne_zero _)
  have hexp : Real.exp (-b * t i) * Real.exp (b * t i) = 1 := by
    rw [← Real.exp_add]
    norm_num
  have hkey : ∀ k, structRaw (TDMatrix t) mu a b i k
      = a * Real.exp (-b * t i) * timeRaw t mu a b i k := by
    intro k
    by_cases h1 : i = k
    · subst h1
      rw [structRaw_diag, timeRaw_diag]
      calc mu = a / a * mu * (Real.exp (-b * t i) * Real.exp (b * t i)) := by
            rw [div_self ha.ne', hexp, one_mul, mul_one]
        _ = a * Real.exp (-b * t i) * (mu / a * Real.exp (b * t i)) := by ring
    · by_cases h2 : i ≤ k
      · show (if i = k then mu else if i ≤ k then 0
            else a * Real.exp (-b * TDMatrix t i k))
            = a * Real.exp (-b * t i) * (if i = k then mu / a * Real.exp (b * t i)
              else if i ≤ k then 0 else Real.exp (b * t k))
        rw [if_neg h1, if_neg h1, if_pos h2, if_pos h2, mul_zero]
      · have hki : k ≤ i := (lt_of_not_le h2).le
        show (if i = k then mu else if i ≤ k then 0
            else a * Real.exp (-b * TDMatrix t i k))
            = a * Real.exp (-b * t i) * (if i = k then mu / a * Real.exp (b * t i)
              else if i ≤ k then 0 else Real.exp (b * t k))
        rw [if_neg h1, if_neg h1, if_neg h2, if_neg h2]
        have hdt : TDMatrix t i k = t i - t k := by simp [TDMatrix, hki]
        rw [hdt, mul_assoc, ← Real.exp_add]
        congr 2
        ring
  have hsum : (∑ k, structRaw (TDMatrix t) mu a b i k)
      = a * Real.exp (-b * t i) * ∑ k, timeRaw t mu a b i k := by
    rw [Finset.mul_sum]
    exact Finset.sum_congr rfl fun k _ => hkey k
  show timeRaw t mu a b i j / ∑ k, timeRaw t mu a b i k
      = structRaw (TDMatrix t) mu a b i j / ∑ k, structRaw (TDMatrix t) mu a b i k
  rw [hkey j, hsum, mul_div_mul_left _ _ hc]

/-- Witness for C9 at the concrete input `t = [0.0]`, `mu = a = b = 1`. -/
theorem structProbMatrixFromTime_eq_structProbMatrix_witness :
    StructProbMatrixFromTime ![(0 : ℝ)] 1 1 1
      = StructProbMatrix (TDMatrix ![(0 : ℝ)]) 1 1 1 :=
  structProbMatrixFromTime_eq_structProbMatrix ![(0 : ℝ)] 1 1 1
    (by
      intro i j hij
      have h1 := i.isLt
      have h2 := j.isLt
      rw [Fin.lt_def] at hij
      omega)
    one_pos one_pos one_pos

/-- Claim C5: for any responsibility matrix `p` that is zero strictly above the
diagonal (the shape `Q` is always applied to), `Q mu a b t p dt` equals
`log(mu)·S0 − mu·T + Σ_{j≤i} p_ij·(log(a) − b·dt_ij)
 + (a/b)·Σ_i (exp(−b(T−t_i)) − 1)`, with `S0` the diagonal sum of `p` and
`T = t[n−1] − t[0]`; the diagonal terms `p_ii·log(a)` sit inside the middle
sum.  (`Q` is a function of its arguments and mutates nothing, as the
functional embedding makes intrinsic.) -/
theorem Q_closed_form {n : ℕ} (mu a b : ℝ) (t : Fin (n + 1) → ℝ)
    (p dt : Fin (n + 1) → Fin (n + 1) → ℝ)
    (hp : ∀ i j : Fin (n + 1), i < j → p i j = 0) :
    Q mu a b t p dt
      = Real.log mu * specS0 p - mu * (t (Fin.last n) - t 0)
        + (∑ i, ∑ j ∈ Finset.univ.filter (fun j => j ≤ i),
            p i j * (Real.log a - b * dt i j))
        + a / b * ∑ i, (Real.exp (-b * (t (Fin.last n) - t 0 - t i)) - 1) := by
  have hmid : (∑ i, ∑ j, p i j * (Real.log a - b * dt i j))
      = ∑ i, ∑ j ∈ Finset.univ.filter (fun j => j ≤ i),
          p i j * (Real.log a - b * dt i j) := by
    refine Finset.sum_congr rfl fun i _ => ?_
    rw [Finset.sum_filter]
    refine Finset.sum_congr rfl fun j _ => ?_
    by_cases h : j ≤ i
    · rw [if_pos h]
    · rw [if_neg h, hp i j (lt_of_not_le h), zero_mul]
  rw [Q, hmid, specS0]

/-- Witness for C5 at `n = 0`, `t = [0.0]`, `p = dt = 0`, `mu = a = b = 1`. -/
theorem Q_closed_form_witness :
    Q 1 1 1 ![(0 : ℝ)] (fun _ _ => 0) (fun _ _ => 0)
      = Real.log 1 * (@specS0 1 fun _ _ => (0 : ℝ))
          - 1 * (![(0 : ℝ)] (Fin.last 0) - ![(0 : ℝ)] 0)
        + (∑ i : Fin 1, ∑ j ∈ Finset.univ.filter (fun j => j ≤ i),
            (0 : ℝ) * (Real.log 1 - 1 * 0))
        + 1 / 1 * ∑ i : Fin 1,
            (Real.exp (-1 * (![(0 : ℝ)] (Fin.last 0) - ![(0 : ℝ)] 0
              - ![(0 : ℝ)] i)) - 1) :=
  Q_closed_form 1 1 1 ![(0 : ℝ)] (fun _ _ => 0) (fun _ _ => 0)
    (fun _ _ _ => rfl)

/-- Witness for C6 at `t = [0.0, 1.0]`, positions `(1, 0)` and `(0, 1)`. -/
theorem tdMatrix_entries_witness :
    TDMatrix ![(0 : ℝ), 1] 1 0 = ![(0 : ℝ), 1] 1 - ![(0 : ℝ), 1] 0 ∧
    TDMatrix ![(0 : ℝ), 1] 0 1 = 0 :=
  ⟨(tdMatrix_entries ![(0 : ℝ), 1] 1 0).1 (by decide),
   (tdMatrix_entries ![(0 : ℝ), 1] 0 1).2 (by decide)⟩

/-- Claim C2: one iteration body of `ExpectationMaximization`, run on `dt = TDMatrix t`
and `T = t[n−1] − t[0]`, produces exactly the M-step of the claim: with
`p` the E-step responsibility matrix, `S0` its diagonal sum,
`S1 = n − S0` and `S2 = −Σ_{j≤i} p_ij·dt_ij`, the new `mu` is `S0 / T`,
the new `b` is the value returned by the root-finding iteration applied to
the claim's stationarity function seeded at the previous `b`, and the new
`a` is `b · S1 / Σ_i (1 − exp(−b·(T − t_i)))` at the new `b`.  (The code
computes `S2` as `-(p * dt).sum()` over the whole array; the equality with
the claim's lower-triangular sum holds because `TDMatrix` stores `0`
strictly above the diagonal.) -/
theorem emBody_mstep_formulas {n : ℕ} (solve : (ℝ → ℝ) → ℝ → Except String ℝ)
    (t : Fin (n + 1) → ℝ) (mu a b : ℝ)
    (pprev : Fin (n + 1) → Fin (n + 1) → ℝ) :
    EMbody solve t (TDMatrix t) (t (Fin.last n) - t 0) (mu, a, b, pprev)
      = (solve
          (specStationarity t (t (Fin.last n) - t 0)
            (((n + 1 : ℕ) : ℝ) - specS0 (StructProbMatrix (TDMatrix t) mu a b))
            (specS2 (StructProbMatrix (TDMatrix t) mu a b) (TDMatrix t)))
          b).map
        fun bnew =>
          (specS0 (StructProbMatrix (TDMatrix t) mu a b)
             / (t (Fin.last n) - t 0),
           bnew * (((n + 1 : ℕ) : ℝ)
               - specS0 (StructProbMatrix (TDMatrix t) mu a b))
             / ∑ i, (1 - Real.exp (-bnew * (t (Fin.last n) - t 0 - t i))),
           bnew,
           StructProbMatrix (TDMatrix t) mu a b) := by
  have hS2 : (∑ i, ∑ j, StructProbMatrix (TDMatrix t) mu a b i j
        * TDMatrix t i j)
      = ∑ i, ∑ j ∈ Finset.univ.filter (fun j => j ≤ i),
          StructProbMatrix (TDMatrix t) mu a b i j * TDMatrix t i j := by
    refine Finset.sum_congr rfl fun i _ => ?_
    rw [Finset.sum_filter]
    refine Finset.sum_congr rfl fun j _ => ?_
    by_cases h : j ≤ i
    · rw [if_pos h]
    · rw [if_neg h, show TDMatrix t i j = 0 from by simp [TDMatrix, h],
        mul_zero]
  simp only [EMbody]
  rw [hS2]
  rfl

/-- Claim C3 counterexample: on the invalid single-timestamp input `t = [5.0]` (the
precondition demands at least two timestamps) with the default parameters,
`ExpectationMaximization` reports nothing and runs its E/M iteration: with a
root finder that returns its seed, one iteration returns
`Except.ok (0, 0, 0.5, p)` with `p` the computed all-ones `1 × 1`
responsibility matrix.  (The `mu` slot is `S0 / T = 1 / 0`, which is `0`
under Lean's total division; NumPy emits `inf` with a runtime warning —
either way no precondition error is raised and the iteration runs.) -/
theorem em_runs_on_invalid_input :
    ¬ validInput ![(5 : ℝ)] 0.9 0.8 0.5 ∧
    ExpectationMaximization ![(5 : ℝ)] 1 0.9 0.8 0.5 (fun _ x => Except.ok x)
      = Except.ok (0, 0, 0.5, fun _ _ => 1) := by
  constructor
  · intro h
    exact absurd h.1 (by norm_num)
  · have hp : StructProbMatrix (TDMatrix ![(5 : ℝ)]) 0.9 0.8 0.5
        = fun _ _ => 1 := by
      funext i j
      have hi : i = 0 := Subsingleton.elim i 0
      have hj : j = 0 := Subsingleton.elim j 0
      subst hi hj
      show structRaw (TDMatrix ![(5 : ℝ)]) 0.9 0.8 0.5 0 0
          / ∑ k, structRaw (TDMatrix ![(5 : ℝ)]) 0.9 0.8 0.5 0 k = 1
      rw [Fin.sum_univ_one, structRaw_diag]
      norm_num
    simp only [ExpectationMaximization, EMloop, EMbody, hp]
    rw [Fin.sum_univ_one]
    simp only [Except.map, Except.bind]
    norm_num

/-- Claim C3 amended: `ExpectationMaximization` performs no input validation — for
every input, valid or not, and every iteration count `niter ≥ 1`, it runs
its configured iterations, and whenever the root finder succeeds the engine
returns a result rather than reporting a precondition violation.  (At
`niter = 0` the source fails for every input, valid or invalid alike: the
`return` raises `UnboundLocalError` because `p` was never assigned —
still not a precondition check.) -/
theorem em_no_validation {n : ℕ} (t : Fin (n + 1) → ℝ) (niter : ℕ)
    (mu0 a0 b0 : ℝ) (solve : (ℝ → ℝ) → ℝ → Except String ℝ)
    (hniter : 1 ≤ niter)
    (hsolve : ∀ g x, ∃ y, solve g x = Except.ok y) :
    ∃ r, ExpectationMaximization t niter mu0 a0 b0 solve = Except.ok r := by
  rw [ExpectationMaximization, if_neg (by omega : ¬ niter = 0)]
  have hbody : ∀ s, ∃ r,
      EMbody solve t (TDMatrix t) (t (Fin.last n) - t 0) s = Except.ok r := by
    intro s
    obtain ⟨y, hy⟩ := hsolve
      (f t (t (Fin.last n) - t 0)
        (∑ i, StructProbMatrix (TDMatrix t) s.1 s.2.1 s.2.2.1 i i)
        (((n + 1 : ℕ) : ℝ)
          - ∑ i, StructProbMatrix (TDMatrix t) s.1 s.2.1 s.2.2.1 i i)
        (-(∑ i, ∑ j, StructProbMatrix (TDMatrix t) s.1 s.2.1 s.2.2.1 i j
            * TDMatrix t i j)))
      s.2.2.1
    simp only [EMbody]
    rw [hy]
    exact ⟨_, rfl⟩
  suffices h : ∀ (k : ℕ) (s : ℝ × ℝ × ℝ × (Fin (n + 1) → Fin (n + 1) → ℝ)),
      ∃ r, EMloop solve t (TDMatrix t) (t (Fin.last n) - t 0) k s
        = Except.ok r by
    exact h niter _
  intro k
  induction k with
  | zero => exact fun s => ⟨s, rfl⟩
  | succ m ih =>
      intro s
      obtain ⟨r1, hr1⟩ := hbody s
      obtain ⟨r2, hr2⟩ := ih r1
      refine ⟨r2, ?_⟩
      simp only [EMloop]
      rw [hr1]
      simpa [Except.bind] using hr2

/-- Witness for the amended C3 theorem: the always-succeeding seed-returning
root finder on the single-timestamp input. -/
theorem em_no_validation_witness :
    ∃ r, ExpectationMaximization ![(5 : ℝ)] 1 0.9 0.8 0.5
        (fun _ x => Except.ok x) = Except.ok r :=
  em_no_validation ![(5 : ℝ)] 1 0.9 0.8 0.5 (fun _ x => Except.ok x)
    (le_refl 1) (fun _ x => ⟨x, rfl⟩)

/-- Claim C7: the stored entry set of `SparseTDMatrix t max_td` is exactly the set
of positions `(i, j)` with `j ≤ i < n` and `t[i] − t[j] ≥ max_td`, each
carrying the value `t[i] − t[j]`; and on `t = [0.0, 1.0, 2.0, 10.0]` with
`max_td = 5.0` the retained entries are exactly `(3,0) ↦ 10`, `(3,1) ↦ 9`,
`(3,2) ↦ 8`. -/
theorem sparseTDMatrix_stored_entries :
    (∀ (t : List ℝ) (m : ℝ), 0 ≤ m → ∀ (i j : ℕ) (v : ℝ),
      ((i, j, v) ∈ SparseTDMatrix t m ↔
        i < t.length ∧ j ≤ i ∧ m ≤ t.getD i 0 - t.getD j 0 ∧
          v = t.getD i 0 - t.getD j 0)) ∧
    SparseTDMatrix [0, 1, 2, 10] 5 = [(3, 0, 10), (3, 1, 9), (3, 2, 8)] := by
  constructor
  · intro t m _ i j v
    unfold SparseTDMatrix
    rw [List.mem_flatMap]
    constructor
    · rintro ⟨a, ha, hmem⟩
      rw [List.mem_range] at ha
      rw [List.mem_filterMap] at hmem
      obtain ⟨c, hc, hopt⟩ := hmem
      rw [List.mem_range] at hc
      by_cases hcond : m ≤ t.getD a 0 - t.getD c 0
      · rw [if_pos hcond] at hopt
        obtain ⟨rfl, rfl, rfl⟩ : a = i ∧ c = j ∧ t.getD a 0 - t.getD c 0 = v := by
          simpa using hopt
        exact ⟨ha, Nat.lt_succ_iff.mp hc, hcond, rfl⟩
      · rw [if_neg hcond] at hopt
        exact absurd hopt (by simp)
    · rintro ⟨hi, hji, hcond, rfl⟩
      refine ⟨i, List.mem_range.mpr hi, ?_⟩
      rw [List.mem_filterMap]
      exact ⟨j, List.mem_range.mpr (Nat.lt_succ_of_le hji), by rw [if_pos hcond]⟩
  · unfold SparseTDMatrix
    norm_num [List.range_succ, List.filterMap_cons]

/-- Witness for C7 at the stored entry `(3, 0) ↦ 10` of the concrete
scenario. -/
theorem sparseTDMatrix_stored_entries_witness :
    (3, 0, (10 : ℝ)) ∈ SparseTDMatrix [(0 : ℝ), 1, 2, 10] 5 ↔
      3 < ([(0 : ℝ), 1, 2, 10]).length ∧ 0 ≤ 3 ∧
        (5 : ℝ) ≤ ([(0 : ℝ), 1, 2, 10]).getD 3 0 - ([(0 : ℝ), 1, 2, 10]).getD 0 0 ∧
        (10 : ℝ) = ([(0 : ℝ), 1, 2, 10]).getD 3 0 - ([(0 : ℝ), 1, 2, 10]).getD 0 0 :=
  sparseTDMatrix_stored_entries.1 [(0 : ℝ), 1, 2, 10] 5 (by norm_num) 3 0 10

/-- Claim C8 counterexample: at the degenerate input where every `T − t_i` is `0`
(all events coincide with the horizon), the denominator
`Σ_i (1 − exp(−b·(T − t_i)))` of the root objective is `0`, yet `f`
detects nothing and still evaluates: with `t = [0, 0]`, `T = 0`,
`S1 = 1`, `S2 = 0`, `b = 1` it returns the plain value `1` (in exact
arithmetic the quotient term collapses to `0`; NumPy silently produces
`nan` from `0.0/0.0` with only a runtime warning).  No
non-convergence/domain failure is reported. -/
theorem f_evaluates_at_zero_denominator :
    (∑ i : Fin 2, (1 - Real.exp (-(1 : ℝ) * ((0 : ℝ) - ![(0 : ℝ), 0] i)))) = 0 ∧
    f ![(0 : ℝ), 0] 0 1 1 0 1 = 1 := by
  have hsum : (∑ i : Fin 2,
      (1 - Real.exp (-(1 : ℝ) * ((0 : ℝ) - ![(0 : ℝ), 0] i)))) = 0 := by
    rw [Fin.sum_univ_two]
    norm_num
  refine ⟨hsum, ?_⟩
  show (0 : ℝ) + 1 / 1 - 1 * ((∑ i : Fin 2, (0 - ![(0 : ℝ), 0] i)
      * Real.exp (-(1 : ℝ) * ((0 : ℝ) - ![(0 : ℝ), 0] i)))
      / ∑ i : Fin 2, (1 - Real.exp (-(1 : ℝ) * ((0 : ℝ) - ![(0 : ℝ), 0] i)))) = 1
  rw [hsum, div_zero, mul_zero, sub_zero]
  norm_num

/-- Claim C8 amended: the code contains no guard for the degenerate denominator —
whenever `Σ_i (1 − exp(−b·(T − t_i))) = 0`, the root objective `f` silently
evaluates right through it and returns `S2 + S1/b` (the quotient term
collapsing to `0` under Lean's total division; NumPy instead propagates a
silent `nan`/`inf` with a warning), rather than reporting a
non-convergence/domain failure. -/
theorem f_zero_denominator_unguarded {n : ℕ} (t : Fin n → ℝ)
    (T S0 S1 S2 b : ℝ)
    (hden : (∑ i, (1 - Real.exp (-b * (T - t i)))) = 0) :
    f t T S0 S1 S2 b = S2 + S1 / b := by
  unfold f
  rw [hden, div_zero, mul_zero, sub_zero]

/-- Witness for the amended C8 theorem at `t = [0, 0]`, `T = 0`, `b = 5`. -/
theorem f_zero_denominator_unguarded_witness :
    f ![(0 : ℝ), 0] 0 2 3 4 5 = 4 + 3 / 5 :=
  f_zero_denominator_unguarded ![(0 : ℝ), 0] 0 2 3 4 5
    (by rw [Fin.sum_univ_two]; norm_num)

/-- Claim C10: `SparseStructProbMatrix` never returns a responsibility matrix:
`p = a * np.exp(-b * dt.data)` is one-dimensional, and indexing it with the
two index arrays of `np.diag_indices(p.shape[0])` raises
`IndexError: too many indices for array` for every stored-value list. -/
theorem sparseStructProbMatrix_index_error (data : List ℝ) (mu a b : ℝ)
    (hdata : data ≠ []) :
    SparseStructProbMatrix data mu a b
      = Except.error "IndexError: too many indices for array" := rfl

/-- Witness for C10 on the one-entry stored-value list `[1.0]`. -/
theorem sparseStructProbMatrix_index_error_witness :
    SparseStructProbMatrix [(1 : ℝ)] 1 1 1
      = Except.error "IndexError: too many indices for array" :=
  sparseStructProbMatrix_index_error [(1 : ℝ)] 1 1 1 (List.cons_ne_nil 1 [])

end

end Hawkes
